import Mathlib

/-!
Shallow embedding of `backend/routes/collections.py`: REST endpoints managing
collections of companies (many-to-many membership), with bulk add, toggle,
bulk like/unlike, and streaming variants.

The data model mirrors the three relational tables touched by the routes:
`CompanyCollection` (uuid primary key, collection_name), `Company` (integer
primary key, company_name) and `CompanyCollectionAssociation` (rows pairing a
collection id with a company id).  Collection uuids are modelled as `Nat`
(opaque identifiers), company ids as `Int` (Python integers), and the
association table as a `List` of (collection id, company id) rows, so that
duplicate rows are representable and the at-most-one-row invariant is a
provable property, not baked into the state type.

Each route handler becomes a pure function threading the database state
explicitly; raising `HTTPException` becomes returning `Except.error` together
with the untouched state.  SQLAlchemy queries become list operations, Python
`set` values become `Finset CompanyId` (or deduplicated lists where the code
iterates over them), and Python `sorted` becomes `List.insertionSort (· ≤ ·)`.
-/

deriving instance DecidableEq for Except

abbrev CollectionId := Nat

abbrev CompanyId := Int

structure DB where
  collections : List (CollectionId × String)
  companies : List (CompanyId × String)
  associations : List (CollectionId × CompanyId)
  deriving Repr, DecidableEq

instance : BEq (CollectionId × CompanyId) := instBEqOfDecidableEq

instance : LawfulBEq (CollectionId × CompanyId) where
  eq_of_beq h := of_decide_eq_true h
  rfl := decide_eq_true rfl

/-- `db.query(CompanyCollection).get(cid)`. -/
def getCollectionById (db : DB) (cid : CollectionId) : Option (CollectionId × String) :=
  db.collections.find? (fun c => c.1 == cid)

/-- `db.query(Company).get(coid)`. -/
def getCompanyById (db : DB) (coid : CompanyId) : Option (CompanyId × String) :=
  db.companies.find? (fun c => c.1 == coid)

/-- `db.query(Company).filter(Company.id.in_(ids)).all()`. -/
def queryCompaniesIn (db : DB) (ids : List CompanyId) : List (CompanyId × String) :=
  db.companies.filter (fun c => ids.contains c.1)

/-- `db.query(CompanyCollectionAssociation).filter(collection_id == cid, company_id == coid).first()`. -/
def assocFirst (db : DB) (cid : CollectionId) (coid : CompanyId) :
    Option (CollectionId × CompanyId) :=
  db.associations.find? (fun a => a.1 == cid && a.2 == coid)

/-- `db.query(CompanyCollectionAssociation).filter(collection_id == cid).count()`. -/
def countAssociations (db : DB) (cid : CollectionId) : Nat :=
  (db.associations.filter (fun a => a.1 == cid)).length

/-- `db.query(CompanyCollectionAssociation).filter(collection_id == cid, company_id.in_(ids)).all()`. -/
def existingAssociations (db : DB) (cid : CollectionId) (ids : List CompanyId) :
    List (CollectionId × CompanyId) :=
  db.associations.filter (fun a => a.1 == cid && ids.contains a.2)

/-- The Python set difference `set(ids) \ s`, as the deduplicated list of
elements of `ids` outside `s`.  Its `toFinset` is the set difference; iterating
`sorted(...)` over it is modelled by `List.insertionSort (· ≤ ·)`, which yields
the unique ascending enumeration of the same set, exactly as Python `sorted`
does on a set. -/
def setDiffList (ids : List CompanyId) (s : Finset CompanyId) : List CompanyId :=
  ids.dedup.filter (fun i => decide (i ∉ s))

/-- The HTTP 404 errors raised by the routes, with the data their `detail`
strings carry.  `companiesNotFound` carries
`set(request.company_ids) - found_ids`, the set interpolated into
`f"Companies not found: {list(missing_ids)}"`. -/
inductive ApiError where
  | targetCollectionNotFound
  | companiesNotFound (missing : Finset CompanyId)
  | collectionNotFound
  | companyNotFound
  | requiredCollectionsNotFound
  deriving DecidableEq

/-- The `progress` dict built by `add_companies_to_collection`. -/
structure ProgressInfo where
  total_requested : Nat
  already_existed : Nat
  newly_added : Nat
  completion_percentage : Nat
  deriving Repr, DecidableEq

/-- `AddCompaniesResponse` pydantic model. -/
structure AddCompaniesResponse where
  message : String
  added_count : Nat
  total_companies_in_target : Nat
  progress : ProgressInfo
  deriving Repr, DecidableEq

/-- The insert loop of `add_companies_to_collection`: for each id in order,
re-check existence of the association row; if absent, `db.add` the new row and
`db.commit` (a committed append to the association table), incrementing
`newly_added`. -/
def addLoop (target : CollectionId) : List CompanyId → DB → Nat → DB × Nat
  | [], db, newly_added => (db, newly_added)
  | company_id :: rest, db, newly_added =>
    match assocFirst db target company_id with
    | some _ => addLoop target rest db newly_added
    | none =>
        addLoop target rest
          { db with associations := db.associations ++ [(target, company_id)] }
          (newly_added + 1)

/-- `POST /collections/{target_collection_id}/add-companies`
(`add_companies_to_collection`).  Returns the response (or the raised
`HTTPException`) together with the database state after the call. -/
def add_companies_to_collection (db : DB) (target_collection_id : CollectionId)
    (company_ids : List CompanyId) : Except ApiError AddCompaniesResponse × DB :=
  match getCollectionById db target_collection_id with
  | none => (.error .targetCollectionNotFound, db)
  | some target_collection =>
    let companies := queryCompaniesIn db company_ids
    if companies.length ≠ company_ids.length then
      let found_ids := (companies.map (fun c => c.1)).toFinset
      let missing_ids := company_ids.toFinset \ found_ids
      (.error (.companiesNotFound missing_ids), db)
    else
      let existing_assocs := existingAssociations db target_collection_id company_ids
      let existing_company_ids := (existing_assocs.map (fun a => a.2)).toFinset
      let new_company_ids := setDiffList company_ids existing_company_ids
      if new_company_ids = [] then
        let total_count := countAssociations db target_collection_id
        (.ok { message := "All companies already exist in the target collection"
               added_count := 0
               total_companies_in_target := total_count
               progress := { total_requested := company_ids.length
                             already_existed := company_ids.length
                             newly_added := 0
                             completion_percentage := 100 } }, db)
      else
        let sorted_company_ids := new_company_ids.insertionSort (· ≤ ·)
        let result := addLoop target_collection_id sorted_company_ids db 0
        let db1 := result.1
        let newly_added := result.2
        let total_count := countAssociations db1 target_collection_id
        (.ok { message := "Successfully added " ++ toString newly_added ++
                 " companies to " ++ target_collection.2
               added_count := newly_added
               total_companies_in_target := total_count
               progress := { total_requested := company_ids.length
                             already_existed := existing_company_ids.card
                             newly_added := newly_added
                             completion_percentage := 100 } }, db1)

/-- A joined row of
`db.query(CompanyCollectionAssociation, Company).join(Company)` restricted to
`collection_id == cid`: each association row paired with each company row whose
id matches its `company_id` (an inner join, with SQL multiplicity). -/
def joinedRows (db : DB) (cid : CollectionId) :
    List ((CollectionId × CompanyId) × (CompanyId × String)) :=
  (db.associations.filter (fun a => a.1 == cid)).flatMap
    (fun a => (db.companies.filter (fun c => c.1 == a.2)).map (fun c => (a, c)))

/-- `CompanyCollectionOutput` pydantic model; `companies` holds the company ids
of the returned page's rows, in row order (the handler feeds exactly these ids
to `fetch_companies_with_liked`). -/
structure CompanyCollectionOutput where
  id : CollectionId
  collection_name : String
  companies : List CompanyId
  total : Nat
  deriving Repr, DecidableEq

/-- `GET /collections/{collection_id}` (`get_company_collection_by_id`).
`base_query` joins associations with companies for this collection;
`total_count` counts it before pagination; the page is the joined rows
ordered by `Company.id` ascending, windowed by `offset`/`limit`.  The final
`.get(collection_id).collection_name` dereference fails when the collection is
absent, hence the `Option`. -/
def get_company_collection_by_id (db : DB) (collection_id : CollectionId)
    (offset : Nat) (limit : Nat) : Option CompanyCollectionOutput :=
  let base_query := joinedRows db collection_id
  let total_count := base_query.length
  let query := base_query.insertionSort (fun x y => x.2.1 ≤ y.2.1)
  let results := (query.drop offset).take limit
  let companies := results.map (fun r => r.2.1)
  (getCollectionById db collection_id).map (fun coll =>
    { id := collection_id
      collection_name := coll.2
      companies := companies
      total := total_count })

/-- `CollectionCompanyIdsResponse` pydantic model. -/
structure CollectionCompanyIdsResponse where
  company_ids : List CompanyId
  total_count : Nat
  deriving Repr, DecidableEq

/-- `GET /collections/{collection_id}/company-ids` (`get_collection_company_ids`):
all association rows of the collection joined with `Company`, ordered by
`Company.id` ascending, projected to `company_id`. -/
def get_collection_company_ids (db : DB) (collection_id : CollectionId) :
    Except ApiError CollectionCompanyIdsResponse :=
  match getCollectionById db collection_id with
  | none => .error .collectionNotFound
  | some _collection =>
    let associations := (joinedRows db collection_id).insertionSort (fun x y => x.2.1 ≤ y.2.1)
    let company_ids := associations.map (fun r => r.1.2)
    .ok { company_ids := company_ids, total_count := company_ids.length }

/-- The JSON body returned by `toggle_company_in_collection`. -/
structure ToggleResponse where
  message : String
  is_in_collection : Bool
  deriving Repr, DecidableEq

/-- `POST /collections/{collection_id}/toggle-company/{company_id}`
(`toggle_company_in_collection`): delete the association row if present,
insert it if absent; `is_in_collection = not existing_association`. -/
def toggle_company_in_collection (db : DB) (collection_id : CollectionId)
    (company_id : CompanyId) : Except ApiError ToggleResponse × DB :=
  match getCollectionById db collection_id with
  | none => (.error .collectionNotFound, db)
  | some collection =>
    match getCompanyById db company_id with
    | none => (.error .companyNotFound, db)
    | some company =>
      match assocFirst db collection_id company_id with
      | some existing_association =>
          (.ok { message := "Company " ++ company.2 ++ " removed from " ++ collection.2
                 is_in_collection := false },
           { db with associations := db.associations.erase existing_association })
      | none =>
          (.ok { message := "Company " ++ company.2 ++ " added to " ++ collection.2
                 is_in_collection := true },
           { db with associations := db.associations ++ [(collection_id, company_id)] })

/-- The primitive session actions issued against the database by a handler, in
program order: staging a new row (`db.add`), staging a row deletion
(`db.delete`), and a durable `db.commit`. -/
inductive DbAction where
  | add (row : CollectionId × CompanyId)
  | delete (row : CollectionId × CompanyId)
  | commit
  deriving Repr, DecidableEq

/-- The Python set intersection `s & set(ids)` as a deduplicated list, for
iteration via `sorted`. -/
def setInterList (ids : List CompanyId) (s : Finset CompanyId) : List CompanyId :=
  ids.dedup.filter (fun i => decide (i ∈ s))

/-- The JSON body returned by `like_companies_bulk`, including its `progress`
dict (whose fields repeat the top-level counters plus `total_requested`). -/
structure LikeBulkResponse where
  message : String
  newly_liked : Nat
  already_liked : Nat
  total_liked : Nat
  total_requested : Nat
  deriving Repr, DecidableEq

/-- `POST /collections/like-companies` (`like_companies_bulk`): resolve the
"My List" and "Liked Companies List" collections by name, validate the
requested companies, then stage one insert per currently-unliked requested id
(in ascending order) and issue a single `db.commit` after the loop.  The third
component is the trace of session actions issued. -/
def like_companies_bulk (db : DB) (company_ids : List CompanyId) :
    Except ApiError LikeBulkResponse × DB × List DbAction :=
  match db.collections.find? (fun c => c.2 == "My List"),
        db.collections.find? (fun c => c.2 == "Liked Companies List") with
  | some _my_list_collection, some liked_collection =>
    let companies := queryCompaniesIn db company_ids
    if companies.length ≠ company_ids.length then
      (.error (.companiesNotFound
          (company_ids.toFinset \ (companies.map (fun c => c.1)).toFinset)), db, [])
    else
      let liked_assocs := existingAssociations db liked_collection.1 company_ids
      let currently_liked_ids := (liked_assocs.map (fun a => a.2)).toFinset
      let companies_to_like := setDiffList company_ids currently_liked_ids
      let already_liked_count := (currently_liked_ids ∩ company_ids.toFinset).card
      let sorted_ids := companies_to_like.insertionSort (· ≤ ·)
      let new_rows := sorted_ids.map (fun i => (liked_collection.1, i))
      let newly_liked := new_rows.length
      let db1 := { db with associations := db.associations ++ new_rows }
      let trace := new_rows.map DbAction.add ++ [DbAction.commit]
      let total_liked := countAssociations db1 liked_collection.1
      (.ok { message := "Successfully liked " ++ toString newly_liked ++ " companies (" ++
               toString already_liked_count ++ " were already liked)"
             newly_liked := newly_liked
             already_liked := already_liked_count
             total_liked := total_liked
             total_requested := company_ids.length }, db1, trace)
  | _, _ => (.error .requiredCollectionsNotFound, db, [])

/-- The JSON body returned by `unlike_companies_bulk`. -/
structure UnlikeBulkResponse where
  message : String
  newly_unliked : Nat
  already_unliked : Nat
  total_liked : Nat
  total_requested : Nat
  deriving Repr, DecidableEq

/-- The delete loop of `unlike_companies_bulk`: per id, look up the existing
association row and stage its deletion (visible to the later lookups of the
same loop) counting `newly_unliked`; the single commit after the loop makes
the staged state durable. -/
def unlikeLoop (liked : CollectionId) : List CompanyId → DB → Nat → DB × Nat
  | [], db, newly_unliked => (db, newly_unliked)
  | company_id :: rest, db, newly_unliked =>
    match assocFirst db liked company_id with
    | some existing_association =>
        unlikeLoop liked rest
          { db with associations := db.associations.erase existing_association }
          (newly_unliked + 1)
    | none => unlikeLoop liked rest db newly_unliked

/-- `POST /collections/unlike-companies` (`unlike_companies_bulk`). -/
def unlike_companies_bulk (db : DB) (company_ids : List CompanyId) :
    Except ApiError UnlikeBulkResponse × DB :=
  match db.collections.find? (fun c => c.2 == "My List"),
        db.collections.find? (fun c => c.2 == "Liked Companies List") with
  | some _my_list_collection, some liked_collection =>
    let companies := queryCompaniesIn db company_ids
    if companies.length ≠ company_ids.length then
      (.error (.companiesNotFound
          (company_ids.toFinset \ (companies.map (fun c => c.1)).toFinset)), db)
    else
      let liked_assocs := existingAssociations db liked_collection.1 company_ids
      let currently_liked_ids := (liked_assocs.map (fun a => a.2)).toFinset
      let companies_to_unlike := setInterList company_ids currently_liked_ids
      let already_unliked_count := (setDiffList company_ids currently_liked_ids).length
      let sorted_ids := companies_to_unlike.insertionSort (· ≤ ·)
      let r := unlikeLoop liked_collection.1 sorted_ids db 0
      let db1 := r.1
      let newly_unliked := r.2
      let total_liked := countAssociations db1 liked_collection.1
      (.ok { message := "Successfully unliked " ++ toString newly_unliked ++ " companies (" ++
               toString already_unliked_count ++ " were already unliked)"
             newly_unliked := newly_unliked
             already_unliked := already_unliked_count
             total_liked := total_liked
             total_requested := company_ids.length }, db1)
  | _, _ => (.error .requiredCollectionsNotFound, db)

/-- The JSON events emitted by the `progress_stream` generator of
`add_companies_to_collection_stream`.  Python serialises both
`completeAllExist` and `complete` with type field `complete`; the former
carries neither a `newly_added` nor a `total_processed` field.  The `progress` percentage is
computed in Python as `int((processed / total) * 100)` through float division;
the model uses `processed * 100 / total` (truncating `Nat` division) — no
claim depends on this field.  The `error` constructor mirrors the
`except Exception` branch, which the sequential pure model never takes. -/
inductive AddStreamEvent where
  | completeAllExist (message : String)
  | start (total processed progress : Nat)
  | progress (processed total progress newly_added : Nat)
  | complete (message : String) (total_processed newly_added : Nat)
  | error (message : String)
  deriving Repr, DecidableEq

/-- The per-id loop of `progress_stream` in
`add_companies_to_collection_stream`: re-check existence, insert and commit
when absent, then emit a `progress` event carrying the running counters. -/
def addStreamLoop (target : CollectionId) (total_to_process : Nat) :
    List CompanyId → DB → Nat → Nat → List AddStreamEvent × DB × Nat × Nat
  | [], db, processed, newly_added => ([], db, processed, newly_added)
  | company_id :: rest, db, processed, newly_added =>
    let step :=
      match assocFirst db target company_id with
      | some _ => (db, newly_added)
      | none =>
          ({ db with associations := db.associations ++ [(target, company_id)] },
           newly_added + 1)
    let processed1 := processed + 1
    let ev := AddStreamEvent.progress processed1 total_to_process
      (processed1 * 100 / total_to_process) step.2
    let rest_result := addStreamLoop target total_to_process rest step.1 processed1 step.2
    (ev :: rest_result.1, rest_result.2)

/-- `POST /collections/{target_collection_id}/add-companies-stream`
(`add_companies_to_collection_stream`): validation happens before the
`StreamingResponse` is built (raising 404s); the returned event sequence is
what `progress_stream` yields when fully consumed. -/
def add_companies_to_collection_stream (db : DB) (target_collection_id : CollectionId)
    (company_ids : List CompanyId) : Except ApiError (List AddStreamEvent) × DB :=
  match getCollectionById db target_collection_id with
  | none => (.error .targetCollectionNotFound, db)
  | some _target_collection =>
    let companies := queryCompaniesIn db company_ids
    if companies.length ≠ company_ids.length then
      (.error (.companiesNotFound
          (company_ids.toFinset \ (companies.map (fun c => c.1)).toFinset)), db)
    else
      let existing_assocs := existingAssociations db target_collection_id company_ids
      let existing_company_ids := (existing_assocs.map (fun a => a.2)).toFinset
      let new_company_ids := setDiffList company_ids existing_company_ids
      if new_company_ids = [] then
        (.ok [.completeAllExist "All companies already exist"], db)
      else
        let sorted_company_ids := new_company_ids.insertionSort (· ≤ ·)
        let total_to_process := sorted_company_ids.length
        let r := addStreamLoop target_collection_id total_to_process sorted_company_ids db 0 0
        let events := r.1
        let db1 := r.2.1
        let processed := r.2.2.1
        let newly_added := r.2.2.2
        (.ok (AddStreamEvent.start total_to_process 0 0 ::
              (events ++
               [AddStreamEvent.complete
                 ("Successfully added " ++ toString newly_added ++ " companies")
                 processed newly_added])), db1)

/-- The JSON events emitted by `like_companies_stream`; `progress` additionally
carries the display name of the company being processed. -/
inductive LikeStreamEvent where
  | completeAllLiked (message : String) (newly_liked already_liked : Nat)
  | start (total processed progress : Nat)
  | progress (processed total progress newly_liked : Nat)
      (current_company : String) (company_id : CompanyId)
  | complete (message : String) (total_processed newly_liked already_liked : Nat)
  | error (message : String)
  deriving Repr, DecidableEq

/-- The per-id loop of `progress_stream` in `like_companies_stream`: look up
the company name for display, re-check the association, insert and commit when
absent, then emit a `progress` event. -/
def likeStreamLoop (liked : CollectionId) (total_to_process : Nat) :
    List CompanyId → DB → Nat → Nat → List LikeStreamEvent × DB × Nat × Nat
  | [], db, processed, newly_liked => ([], db, processed, newly_liked)
  | company_id :: rest, db, processed, newly_liked =>
    let company_name :=
      match getCompanyById db company_id with
      | some company => company.2
      | none => "Company " ++ toString company_id
    let step :=
      match assocFirst db liked company_id with
      | some _ => (db, newly_liked)
      | none =>
          ({ db with associations := db.associations ++ [(liked, company_id)] },
           newly_liked + 1)
    let processed1 := processed + 1
    let ev := LikeStreamEvent.progress processed1 total_to_process
      (processed1 * 100 / total_to_process) step.2 company_name company_id
    let rest_result := likeStreamLoop liked total_to_process rest step.1 processed1 step.2
    (ev :: rest_result.1, rest_result.2)

/-- `POST /collections/like-companies-stream` (`like_companies_stream`). -/
def like_companies_stream (db : DB) (company_ids : List CompanyId) :
    Except ApiError (List LikeStreamEvent) × DB :=
  match db.collections.find? (fun c => c.2 == "My List"),
        db.collections.find? (fun c => c.2 == "Liked Companies List") with
  | some _my_list_collection, some liked_collection =>
    let companies := queryCompaniesIn db company_ids
    if companies.length ≠ company_ids.length then
      (.error (.companiesNotFound
          (company_ids.toFinset \ (companies.map (fun c => c.1)).toFinset)), db)
    else
      let liked_assocs := existingAssociations db liked_collection.1 company_ids
      let currently_liked_ids := (liked_assocs.map (fun a => a.2)).toFinset
      let companies_to_like := setDiffList company_ids currently_liked_ids
      let already_liked_count := (currently_liked_ids ∩ company_ids.toFinset).card
      if companies_to_like = [] then
        (.ok [.completeAllLiked
            ("All companies already liked (" ++ toString already_liked_count ++ " companies)")
            0 already_liked_count], db)
      else
        let sorted_company_ids := companies_to_like.insertionSort (· ≤ ·)
        let total_to_process := sorted_company_ids.length
        let r := likeStreamLoop liked_collection.1 total_to_process sorted_company_ids db 0 0
        let events := r.1
        let db1 := r.2.1
        let processed := r.2.2.1
        let newly_liked := r.2.2.2
        (.ok (LikeStreamEvent.start total_to_process 0 0 ::
              (events ++
               [LikeStreamEvent.complete
                 ("Successfully liked " ++ toString newly_liked ++ " companies (" ++
                  toString already_liked_count ++ " were already liked)")
                 processed newly_liked already_liked_count])), db1)
  | _, _ => (.error .requiredCollectionsNotFound, db)

/-- The JSON events emitted by `unlike_companies_stream`. -/
inductive UnlikeStreamEvent where
  | completeAllUnliked (message : String) (newly_unliked already_unliked : Nat)
  | start (total processed progress : Nat)
  | progress (processed total progress newly_unliked : Nat)
      (current_company : String) (company_id : CompanyId)
  | complete (message : String) (total_processed newly_unliked already_unliked : Nat)
  | error (message : String)
  deriving Repr, DecidableEq

/-- The per-id loop of `progress_stream` in `unlike_companies_stream`: look up
the company name for display, delete the association row and commit when
present, then emit a `progress` event. -/
def unlikeStreamLoop (liked : CollectionId) (total_to_process : Nat) :
    List CompanyId → DB → Nat → Nat → List UnlikeStreamEvent × DB × Nat × Nat
  | [], db, processed, newly_unliked => ([], db, processed, newly_unliked)
  | company_id :: rest, db, processed, newly_unliked =>
    let company_name :=
      match getCompanyById db company_id with
      | some company => company.2
      | none => "Company " ++ toString company_id
    let step :=
      match assocFirst db liked company_id with
      | some existing_association =>
          ({ db with associations := db.associations.erase existing_association },
           newly_unliked + 1)
      | none => (db, newly_unliked)
    let processed1 := processed + 1
    let ev := UnlikeStreamEvent.progress processed1 total_to_process
      (processed1 * 100 / total_to_process) step.2 company_name company_id
    let rest_result := unlikeStreamLoop liked total_to_process rest step.1 processed1 step.2
    (ev :: rest_result.1, rest_result.2)

/-- `POST /collections/unlike-companies-stream` (`unlike_companies_stream`). -/
def unlike_companies_stream (db : DB) (company_ids : List CompanyId) :
    Except ApiError (List UnlikeStreamEvent) × DB :=
  match db.collections.find? (fun c => c.2 == "My List"),
        db.collections.find? (fun c => c.2 == "Liked Companies List") with
  | some _my_list_collection, some liked_collection =>
    let companies := queryCompaniesIn db company_ids
    if companies.length ≠ company_ids.length then
      (.error (.companiesNotFound
          (company_ids.toFinset \ (companies.map (fun c => c.1)).toFinset)), db)
    else
      let liked_assocs := existingAssociations db liked_collection.1 company_ids
      let currently_liked_ids := (liked_assocs.map (fun a => a.2)).toFinset
      let companies_to_unlike := setInterList company_ids currently_liked_ids
      let already_unliked_count := (setDiffList company_ids currently_liked_ids).length
      if companies_to_unlike = [] then
        (.ok [.completeAllUnliked
            ("All companies already unliked (" ++ toString already_unliked_count ++ " companies)")
            0 already_unliked_count], db)
      else
        let sorted_company_ids := companies_to_unlike.insertionSort (· ≤ ·)
        let total_to_process := sorted_company_ids.length
        let r := unlikeStreamLoop liked_collection.1 total_to_process sorted_company_ids db 0 0
        let events := r.1
        let db1 := r.2.1
        let processed := r.2.2.1
        let newly_unliked := r.2.2.2
        (.ok (UnlikeStreamEvent.start total_to_process 0 0 ::
              (events ++
               [UnlikeStreamEvent.complete
                 ("Successfully unliked " ++ toString newly_unliked ++ " companies (" ++
                  toString already_unliked_count ++ " were already unliked)")
                 processed newly_unliked already_unliked_count])), db1)
  | _, _ => (.error .requiredCollectionsNotFound, db)

/-- Whether an event is a `progress` event (one emitted per processed id). -/
def isProgressEvent : AddStreamEvent → Bool
  | .progress _ _ _ _ => true
  | _ => false

/-- Sum of the increments of the `newly_added` field across successive
`progress` events: each `progress` event carries the running counter, so its
increment is that counter minus the counter of the preceding `progress` event
(`prev`, initially 0).  Other events carry no counter and are skipped. -/
def newlyAddedDeltaSum (prev : Nat) : List AddStreamEvent → Int
  | [] => 0
  | .progress _ _ _ n :: rest => ((n : Int) - (prev : Int)) + newlyAddedDeltaSum n rest
  | _ :: rest => newlyAddedDeltaSum prev rest

/-- The per-item-commit pattern over a session trace: every staged insert is
committed before any further insert is staged, and no staged insert is left
uncommitted at the end.  `pending` records whether an uncommitted insert is
outstanding. -/
def perItemCommitted : Bool → List DbAction → Bool
  | pending, [] => !pending
  | _, DbAction.commit :: rest => perItemCommitted false rest
  | pending, DbAction.add _ :: rest => !pending && perItemCommitted true rest
  | pending, DbAction.delete _ :: rest => perItemCommitted pending rest

instance : IsTrans ((CollectionId × CompanyId) × CompanyId × String)
    (fun x y => x.2.1 ≤ y.2.1) :=
  ⟨fun _ _ _ h1 h2 => le_trans h1 h2⟩

instance : IsTotal ((CollectionId × CompanyId) × CompanyId × String)
    (fun x y => x.2.1 ≤ y.2.1) :=
  ⟨fun a b => le_total a.2.1 b.2.1⟩

theorem assocFirst_eq_none_iff (db : DB) (cid : CollectionId) (coid : CompanyId) :
    assocFirst db cid coid = none ↔ (cid, coid) ∉ db.associations := by
  unfold assocFirst
  rw [List.find?_eq_none]
  constructor
  · intro h hmem
    have := h _ hmem
    simp at this
  · intro h a ha hp
    simp only [Bool.and_eq_true, beq_iff_eq] at hp
    have : a = (cid, coid) := by
      cases a
      simp only [Prod.mk.injEq]
      exact hp
    exact h (this ▸ ha)

theorem assocFirst_eq_some (db : DB) (cid : CollectionId) (coid : CompanyId)
    (a : CollectionId × CompanyId) (h : assocFirst db cid coid = some a) :
    a = (cid, coid) ∧ (cid, coid) ∈ db.associations := by
  unfold assocFirst at h
  have hmem := List.mem_of_find?_eq_some h
  have hp := List.find?_some h
  simp only [Bool.and_eq_true, beq_iff_eq] at hp
  have : a = (cid, coid) := by
    cases a
    simp only [Prod.mk.injEq]
    exact hp
  exact ⟨this, this ▸ hmem⟩

theorem mem_existingAssociations (db : DB) (cid : CollectionId) (ids : List CompanyId)
    (a : CollectionId × CompanyId) :
    a ∈ existingAssociations db cid ids ↔ a ∈ db.associations ∧ a.1 = cid ∧ a.2 ∈ ids := by
  unfold existingAssociations
  simp [List.mem_filter, List.contains_iff_exists_mem_beq, and_assoc]

theorem mem_existingIds (db : DB) (cid : CollectionId) (ids : List CompanyId) (i : CompanyId) :
    i ∈ ((existingAssociations db cid ids).map (fun a => a.2)).toFinset ↔
      (cid, i) ∈ db.associations ∧ i ∈ ids := by
  simp only [List.mem_toFinset, List.mem_map]
  constructor
  · rintro ⟨a, ha, rfl⟩
    rw [mem_existingAssociations] at ha
    obtain ⟨hmem, h1, h2⟩ := ha
    exact ⟨by rwa [← h1, Prod.mk.eta], h2⟩
  · rintro ⟨hmem, hin⟩
    exact ⟨(cid, i), (mem_existingAssociations db cid ids (cid, i)).2 ⟨hmem, rfl, hin⟩, rfl⟩

theorem mem_setDiffList (ids : List CompanyId) (s : Finset CompanyId) (i : CompanyId) :
    i ∈ setDiffList ids s ↔ i ∈ ids ∧ i ∉ s := by
  unfold setDiffList
  simp [List.mem_filter]

theorem setDiffList_nodup (ids : List CompanyId) (s : Finset CompanyId) :
    (setDiffList ids s).Nodup :=
  (List.nodup_dedup ids).filter _

theorem setDiffList_eq_nil_iff (ids : List CompanyId) (s : Finset CompanyId) :
    setDiffList ids s = [] ↔ ∀ i ∈ ids, i ∈ s := by
  rw [List.eq_nil_iff_forall_not_mem]
  constructor
  · intro h i hi
    by_contra hs
    exact h i ((mem_setDiffList ids s i).2 ⟨hi, hs⟩)
  · intro h i hi
    rw [mem_setDiffList] at hi
    exact hi.2 (h i hi.1)

theorem setDiffList_toFinset (ids : List CompanyId) (s : Finset CompanyId) :
    (setDiffList ids s).toFinset = ids.toFinset \ s := by
  ext i
  simp [mem_setDiffList]

theorem setDiffList_length (ids : List CompanyId) (s : Finset CompanyId) :
    (setDiffList ids s).length = (ids.toFinset \ s).card := by
  rw [← setDiffList_toFinset, List.toFinset_card_of_nodup (setDiffList_nodup ids s)]

theorem mem_setInterList (ids : List CompanyId) (s : Finset CompanyId) (i : CompanyId) :
    i ∈ setInterList ids s ↔ i ∈ ids ∧ i ∈ s := by
  unfold setInterList
  simp [List.mem_filter]

theorem setInterList_nodup (ids : List CompanyId) (s : Finset CompanyId) :
    (setInterList ids s).Nodup :=
  (List.nodup_dedup ids).filter _

theorem addLoop_run (t : CollectionId) (l : List CompanyId) : ∀ (db : DB) (n : Nat),
    (∀ i ∈ l, (t, i) ∉ db.associations) → l.Nodup →
    addLoop t l db n =
      ({ db with associations := db.associations ++ l.map (fun i => (t, i)) }, n + l.length) := by
  induction l with
  | nil => intro db n _ _; simp [addLoop]
  | cons i rest ih =>
    intro db n hab hnd
    have hnone : assocFirst db t i = none :=
      (assocFirst_eq_none_iff db t i).2 (hab i (List.mem_cons_self i rest))
    have hab' : ∀ j ∈ rest, (t, j) ∉ db.associations ++ [(t, i)] := by
      intro j hj
      simp only [List.mem_append, List.mem_singleton, Prod.mk.injEq]
      push_neg
      refine ⟨hab j (List.mem_cons_of_mem _ hj), fun _ hji => ?_⟩
      exact (List.nodup_cons.1 hnd).1 (hji ▸ hj)
    rw [addLoop, hnone]
    rw [ih _ (n + 1) hab' (List.nodup_cons.1 hnd).2]
    simp [List.append_assoc]
    omega

theorem addLoop_nodup (t : CollectionId) (l : List CompanyId) : ∀ (db : DB) (n : Nat),
    db.associations.Nodup → (addLoop t l db n).1.associations.Nodup := by
  induction l with
  | nil => intro db n h; simpa [addLoop]
  | cons i rest ih =>
    intro db n h
    rw [addLoop]
    cases hfind : assocFirst db t i with
    | some a => exact ih db n h
    | none =>
      have hnotmem : (t, i) ∉ db.associations := (assocFirst_eq_none_iff db t i).1 hfind
      apply ih
      simp [List.nodup_append, h, hnotmem]

theorem addLoop_extra (t : CollectionId) (l : List CompanyId) : ∀ (db : DB) (n : Nat),
    ∃ extra, (addLoop t l db n).1 = { db with associations := db.associations ++ extra } ∧
      ∀ q ∈ extra, q.1 = t ∧ q.2 ∈ l := by
  induction l with
  | nil => intro db n; exact ⟨[], by simp [addLoop], by simp⟩
  | cons i rest ih =>
    intro db n
    rw [addLoop]
    cases hfind : assocFirst db t i with
    | some a =>
      obtain ⟨extra, h1, h2⟩ := ih db n
      exact ⟨extra, h1, fun q hq => ⟨(h2 q hq).1, List.mem_cons_of_mem _ (h2 q hq).2⟩⟩
    | none =>
      obtain ⟨extra, h1, h2⟩ :=
        ih { db with associations := db.associations ++ [(t, i)] } (n + 1)
      refine ⟨(t, i) :: extra, ?_, ?_⟩
      · rw [h1]
        simp
      · rintro q hq
        rcases List.mem_cons.1 hq with rfl | hq'
        · exact ⟨rfl, List.mem_cons_self i rest⟩
        · exact ⟨(h2 q hq').1, List.mem_cons_of_mem _ (h2 q hq').2⟩

theorem queryCompaniesIn_keys_subset (db : DB) (ids : List CompanyId) :
    ∀ k ∈ (queryCompaniesIn db ids).map Prod.fst, k ∈ ids ∧ k ∈ db.companies.map Prod.fst := by
  intro k hk
  simp only [queryCompaniesIn, List.mem_map] at hk
  obtain ⟨c, hc, rfl⟩ := hk
  rw [List.mem_filter] at hc
  refine ⟨?_, List.mem_map.2 ⟨c, hc.1, rfl⟩⟩
  have := hc.2
  simpa [List.contains_iff_exists_mem_beq] using this

theorem queryCompaniesIn_keys_nodup (db : DB) (ids : List CompanyId)
    (hkeys : (db.companies.map Prod.fst).Nodup) :
    ((queryCompaniesIn db ids).map Prod.fst).Nodup :=
  hkeys.sublist ((List.filter_sublist db.companies).map Prod.fst)

theorem length_check_success (db : DB) (ids : List CompanyId)
    (hkeys : (db.companies.map Prod.fst).Nodup)
    (h : (queryCompaniesIn db ids).length = ids.length) :
    ids.Nodup ∧ ∀ i ∈ ids, i ∈ db.companies.map Prod.fst := by
  set keys := (queryCompaniesIn db ids).map Prod.fst with hkeysdef
  have knd : keys.Nodup := queryCompaniesIn_keys_nodup db ids hkeys
  have klen : keys.length = ids.length := by
    rw [hkeysdef, List.length_map]; exact h
  have ksub : keys.toFinset ⊆ ids.toFinset := by
    intro k hk
    rw [List.mem_toFinset] at hk ⊢
    exact (queryCompaniesIn_keys_subset db ids k hk).1
  have hc1 : keys.toFinset.card = ids.length := by
    rw [List.toFinset_card_of_nodup knd, klen]
  have hc2 : ids.toFinset.card = ids.length :=
    le_antisymm (List.toFinset_card_le ids) (hc1 ▸ Finset.card_le_card ksub)
  have hidsnd : ids.Nodup := by
    have hdl : ids.dedup.length = ids.length := by
      rw [← List.card_toFinset]
      exact hc2
    exact List.dedup_eq_self.1 ((List.dedup_sublist ids).eq_of_length hdl)
  have hset : keys.toFinset = ids.toFinset :=
    Finset.eq_of_subset_of_card_le ksub (by rw [hc1, hc2])
  refine ⟨hidsnd, fun i hi => ?_⟩
  have : i ∈ keys.toFinset := by
    rw [hset, List.mem_toFinset]; exact hi
  rw [List.mem_toFinset] at this
  exact (queryCompaniesIn_keys_subset db ids i this).2

theorem length_check_missing (db : DB) (ids : List CompanyId) (i : CompanyId)
    (hkeys : (db.companies.map Prod.fst).Nodup)
    (hin : i ∈ ids) (hmiss : i ∉ db.companies.map Prod.fst) :
    (queryCompaniesIn db ids).length ≠ ids.length := by
  intro h
  obtain ⟨_, hall⟩ := length_check_success db ids hkeys h
  exact hmiss (hall i hin)

theorem queryCompaniesIn_keys_mem (db : DB) (ids : List CompanyId) (i : CompanyId)
    (hi : i ∈ ids) :
    i ∈ (queryCompaniesIn db ids).map Prod.fst ↔ i ∈ db.companies.map Prod.fst := by
  constructor
  · intro h
    exact (queryCompaniesIn_keys_subset db ids i h).2
  · intro h
    obtain ⟨c, hc, rfl⟩ := List.mem_map.1 h
    refine List.mem_map.2 ⟨c, ?_, rfl⟩
    rw [queryCompaniesIn, List.mem_filter]
    refine ⟨hc, ?_⟩
    rw [List.contains_iff_exists_mem_beq]
    exact ⟨c.1, hi, by simp⟩

/-- C1: the spec's scenario — target collection with 0 members, companies 3, 5
and 9 in the directory, request `[5, 3, 3, 9]` — is rejected by the code: the
existence check compares the number of found company rows (3) with the raw
request list length (4), so the duplicated id makes the whole request fail
with a 404 whose enumerated set of missing ids is empty, and nothing is added.
The spec's claimed success (added_count = 3, members [3, 5, 9] afterwards) is
what the code produces only for a duplicate-free request. -/
theorem add_companies_rejects_duplicate_request_ids :
    add_companies_to_collection
        ⟨[(1, "Target")], [(3, "A"), (5, "B"), (9, "C")], []⟩ 1 [5, 3, 3, 9] =
      (.error (.companiesNotFound ∅),
       ⟨[(1, "Target")], [(3, "A"), (5, "B"), (9, "C")], []⟩) := by decide

/-- C10: frame property of reconcile-add — `add_companies_to_collection` never
deletes a membership row (the prior association list survives as a sublist),
and every (collection, company) pair outside {target} × requested ids has
exactly the same membership state after any call, successful or failed. -/
theorem add_companies_frame (db : DB) (t : CollectionId) (ids : List CompanyId) :
    db.associations.Sublist (add_companies_to_collection db t ids).2.associations ∧
    ∀ p : CollectionId × CompanyId, (p.1 ≠ t ∨ p.2 ∉ ids) →
      ((p ∈ (add_companies_to_collection db t ids).2.associations) ↔
        p ∈ db.associations) := by
  have key : ∃ extra, (add_companies_to_collection db t ids).2.associations =
      db.associations ++ extra ∧ ∀ q ∈ extra, q.1 = t ∧ q.2 ∈ ids := by
    rw [add_companies_to_collection]
    cases hcoll : getCollectionById db t with
    | none => exact ⟨[], by simp, by simp⟩
    | some coll =>
      simp only
      split
      · exact ⟨[], by simp, by simp⟩
      · split
        · exact ⟨[], by simp, by simp⟩
        · obtain ⟨extra, h1, h2⟩ := addLoop_extra t
            ((setDiffList ids
              ((existingAssociations db t ids).map (fun a => a.2)).toFinset).insertionSort
              (· ≤ ·)) db 0
          refine ⟨extra, by rw [h1], fun q hq => ?_⟩
          obtain ⟨hq1, hq2⟩ := h2 q hq
          have hmem : q.2 ∈ setDiffList ids
              ((existingAssociations db t ids).map (fun a => a.2)).toFinset :=
            (List.perm_insertionSort _ _).mem_iff.1 hq2
          exact ⟨hq1, ((mem_setDiffList _ _ _).1 hmem).1⟩
  obtain ⟨extra, h1, h2⟩ := key
  constructor
  · rw [h1]
    exact List.sublist_append_left _ _
  · intro p hp
    rw [h1, List.mem_append]
    constructor
    · rintro (h | h)
      · exact h
      · obtain ⟨he1, he2⟩ := h2 p h
        cases hp with
        | inl hne => exact absurd he1 hne
        | inr hni => exact absurd he2 hni
    · exact Or.inl

theorem add_companies_frame_witness :
    ((2, (7 : Int)) ∈
        (add_companies_to_collection ⟨[(1, "T")], [(5, "A")], [(2, 7)]⟩ 1 [5]).2.associations) ↔
      (2, (7 : Int)) ∈ (⟨[(1, "T")], [(5, "A")], [(2, 7)]⟩ : DB).associations :=
  (add_companies_frame ⟨[(1, "T")], [(5, "A")], [(2, 7)]⟩ 1 [5]).2 (2, 7) (by decide)

theorem missing_ids_eq (db : DB) (ids : List CompanyId) :
    ids.toFinset \ ((queryCompaniesIn db ids).map (fun c => c.1)).toFinset =
      ids.toFinset \ (db.companies.map Prod.fst).toFinset := by
  ext x
  simp only [Finset.mem_sdiff, List.mem_toFinset]
  constructor
  · rintro ⟨hx, hnx⟩
    exact ⟨hx, fun hmem => hnx ((queryCompaniesIn_keys_mem db ids x hx).2 hmem)⟩
  · rintro ⟨hx, hnx⟩
    exact ⟨hx, fun hmem => hnx ((queryCompaniesIn_keys_mem db ids x hx).1 hmem)⟩

/-- C3: if the target collection does not exist, or some requested company id
has no company row (under the primary-key invariant that company ids are
unique), `add_companies_to_collection` fails with the corresponding NotFound
error — enumerating, in the company case, exactly the requested ids absent
from the directory, a nonempty set — and the database (in particular the
membership relation) is returned unchanged. -/
theorem add_companies_notFound_before_mutation (db : DB) (t : CollectionId)
    (ids : List CompanyId) (hkeys : (db.companies.map Prod.fst).Nodup)
    (h : getCollectionById db t = none ∨ ∃ i ∈ ids, i ∉ db.companies.map Prod.fst) :
    (add_companies_to_collection db t ids).2 = db ∧
    ((add_companies_to_collection db t ids).1 = .error .targetCollectionNotFound ∨
      ∃ m, (add_companies_to_collection db t ids).1 = .error (.companiesNotFound m) ∧
        m = ids.toFinset \ (db.companies.map Prod.fst).toFinset ∧ m.Nonempty) := by
  cases hcoll : getCollectionById db t with
  | none =>
    refine ⟨?_, Or.inl ?_⟩ <;> rw [add_companies_to_collection, hcoll]
  | some coll =>
    obtain ⟨i, hi, hnm⟩ := h.resolve_left (by simp [hcoll])
    have hne : (queryCompaniesIn db ids).length ≠ ids.length :=
      length_check_missing db ids i hkeys hi hnm
    have hnonempty :
        (ids.toFinset \ (db.companies.map Prod.fst).toFinset).Nonempty :=
      ⟨i, Finset.mem_sdiff.2
        ⟨List.mem_toFinset.2 hi, fun hm => hnm (List.mem_toFinset.1 hm)⟩⟩
    refine ⟨?_, Or.inr ⟨ids.toFinset \ (db.companies.map Prod.fst).toFinset, ?_,
      rfl, hnonempty⟩⟩ <;>
      rw [add_companies_to_collection, hcoll] <;>
      simp only [if_pos hne]
    rw [missing_ids_eq db ids]

theorem add_companies_notFound_before_mutation_witness :
    ((⟨[(1, "T")], [(3, "A")], []⟩ : DB).companies.map Prod.fst).Nodup ∧
    (getCollectionById ⟨[(1, "T")], [(3, "A")], []⟩ 1 = none ∨
      ∃ i ∈ ([3, 4] : List CompanyId), i ∉ (⟨[(1, "T")], [(3, "A")], []⟩ : DB).companies.map Prod.fst) ∧
    ((add_companies_to_collection ⟨[(1, "T")], [(3, "A")], []⟩ 1 [3, 4]).2 =
        ⟨[(1, "T")], [(3, "A")], []⟩ ∧
      ((add_companies_to_collection ⟨[(1, "T")], [(3, "A")], []⟩ 1 [3, 4]).1 =
          .error .targetCollectionNotFound ∨
        ∃ m, (add_companies_to_collection ⟨[(1, "T")], [(3, "A")], []⟩ 1 [3, 4]).1 =
            .error (.companiesNotFound m) ∧
          m = ([3, 4] : List CompanyId).toFinset \
              ((⟨[(1, "T")], [(3, "A")], []⟩ : DB).companies.map Prod.fst).toFinset ∧
          m.Nonempty)) :=
  ⟨by decide, Or.inr ⟨4, by decide, by decide⟩,
    add_companies_notFound_before_mutation ⟨[(1, "T")], [(3, "A")], []⟩ 1 [3, 4]
      (by decide) (Or.inr ⟨4, by decide, by decide⟩)⟩

/-- C2: whenever `add_companies_to_collection` completes without error (under
the primary-key invariant that company ids are unique), the returned progress
counters satisfy `already_existed + newly_added = |deduplicated requested id
set|` (on success nothing is not-found, so the claim's set difference is the
whole deduplicated requested set), and `total_companies_in_target` is the
membership count of the target collection re-queried on the state after the
insert loop. -/
theorem add_companies_counter_conservation (db : DB) (t : CollectionId)
    (ids : List CompanyId) (r : AddCompaniesResponse)
    (hkeys : (db.companies.map Prod.fst).Nodup)
    (hok : (add_companies_to_collection db t ids).1 = .ok r) :
    r.progress.already_existed + r.progress.newly_added = ids.toFinset.card ∧
    r.total_companies_in_target =
      countAssociations (add_companies_to_collection db t ids).2 t := by
  cases hcoll : getCollectionById db t with
  | none =>
    rw [add_companies_to_collection, hcoll] at hok
    exact absurd hok (by simp)
  | some coll =>
    simp only [add_companies_to_collection, hcoll] at hok ⊢
    by_cases hne : (queryCompaniesIn db ids).length ≠ ids.length
    · rw [if_pos hne] at hok
      exact absurd hok (by simp)
    · rw [if_neg hne] at hok ⊢
      have hlen : (queryCompaniesIn db ids).length = ids.length := not_not.1 hne
      obtain ⟨hnodup, _hall⟩ := length_check_success db ids hkeys hlen
      by_cases hnil : setDiffList ids
          ((existingAssociations db t ids).map (fun a => a.2)).toFinset = []
      · rw [if_pos hnil] at hok ⊢
        obtain rfl := Except.ok.inj hok
        refine ⟨?_, rfl⟩
        show ids.length + 0 = ids.toFinset.card
        rw [List.toFinset_card_of_nodup hnodup]
        omega
      · rw [if_neg hnil] at hok ⊢
        have habs : ∀ i ∈ (setDiffList ids
            ((existingAssociations db t ids).map (fun a => a.2)).toFinset).insertionSort
              (· ≤ ·), (t, i) ∉ db.associations := by
          intro i hi
          have hmem : i ∈ setDiffList ids
              ((existingAssociations db t ids).map (fun a => a.2)).toFinset :=
            (List.perm_insertionSort _ _).mem_iff.1 hi
          obtain ⟨hin, hnot⟩ := (mem_setDiffList _ _ _).1 hmem
          intro hrow
          exact hnot (List.mem_toFinset.2 (List.mem_map.2
            ⟨(t, i), (mem_existingAssociations db t ids (t, i)).2 ⟨hrow, rfl, hin⟩, rfl⟩))
        have hsortnodup : ((setDiffList ids
            ((existingAssociations db t ids).map (fun a => a.2)).toFinset).insertionSort
              (· ≤ ·)).Nodup :=
          (List.perm_insertionSort _ _).nodup_iff.2 (setDiffList_nodup _ _)
        rw [addLoop_run t _ db 0 habs hsortnodup] at hok ⊢
        obtain rfl := Except.ok.inj hok
        refine ⟨?_, rfl⟩
        show ((existingAssociations db t ids).map (fun a => a.2)).toFinset.card +
            (0 + ((setDiffList ids
              ((existingAssociations db t ids).map (fun a => a.2)).toFinset).insertionSort
                (· ≤ ·)).length) = ids.toFinset.card
        have hsub : ((existingAssociations db t ids).map (fun a => a.2)).toFinset ⊆
            ids.toFinset := by
          intro i hi
          exact List.mem_toFinset.2 ((mem_existingIds db t ids i).1 hi).2
        have hlen2 : ((setDiffList ids
            ((existingAssociations db t ids).map (fun a => a.2)).toFinset).insertionSort
              (· ≤ ·)).length =
            (ids.toFinset \
              ((existingAssociations db t ids).map (fun a => a.2)).toFinset).card := by
          rw [(List.perm_insertionSort _ _).length_eq, setDiffList_length]
        rw [hlen2]
        have hcards := Finset.card_sdiff_add_card_eq_card hsub
        omega

theorem add_companies_counter_conservation_witness :
    ((⟨[(1, "T")], [(3, "A"), (5, "B")], [(1, 3)]⟩ : DB).companies.map Prod.fst).Nodup ∧
    (add_companies_to_collection ⟨[(1, "T")], [(3, "A"), (5, "B")], [(1, 3)]⟩ 1 [3, 5]).1 =
      .ok { message := "Successfully added 1 companies to T"
            added_count := 1
            total_companies_in_target := 2
            progress := { total_requested := 2
                          already_existed := 1
                          newly_added := 1
                          completion_percentage := 100 } } ∧
    ({ message := "Successfully added 1 companies to T"
       added_count := 1
       total_companies_in_target := 2
       progress := { total_requested := 2
                     already_existed := 1
                     newly_added := 1
                     completion_percentage := 100 } : AddCompaniesResponse}.progress.already_existed +
        ({ message := "Successfully added 1 companies to T"
           added_count := 1
           total_companies_in_target := 2
           progress := { total_requested := 2
                         already_existed := 1
                         newly_added := 1
                         completion_percentage := 100 } : AddCompaniesResponse}).progress.newly_added =
        ([3, 5] : List CompanyId).toFinset.card ∧
      ({ message := "Successfully added 1 companies to T"
         added_count := 1
         total_companies_in_target := 2
         progress := { total_requested := 2
                       already_existed := 1
                       newly_added := 1
                       completion_percentage := 100 } : AddCompaniesResponse}).total_companies_in_target =
        countAssociations
          (add_companies_to_collection ⟨[(1, "T")], [(3, "A"), (5, "B")], [(1, 3)]⟩ 1 [3, 5]).2 1) :=
  ⟨by decide, by decide,
    add_companies_counter_conservation ⟨[(1, "T")], [(3, "A"), (5, "B")], [(1, 3)]⟩ 1 [3, 5]
      _ (by decide) (by decide)⟩

theorem add_companies_fields (db : DB) (t : CollectionId) (ids : List CompanyId) :
    (add_companies_to_collection db t ids).2.collections = db.collections ∧
    (add_companies_to_collection db t ids).2.companies = db.companies := by
  rw [add_companies_to_collection]
  cases hcoll : getCollectionById db t with
  | none => exact ⟨rfl, rfl⟩
  | some coll =>
    simp only
    split
    · exact ⟨rfl, rfl⟩
    · split
      · exact ⟨rfl, rfl⟩
      · obtain ⟨extra, h1, h2⟩ := addLoop_extra t
          ((setDiffList ids
            ((existingAssociations db t ids).map (fun a => a.2)).toFinset).insertionSort
            (· ≤ ·)) db 0
        rw [h1]
        exact ⟨rfl, rfl⟩

theorem sorted_new_ids_spec (db : DB) (t : CollectionId) (ids : List CompanyId) :
    (∀ i ∈ (setDiffList ids
        ((existingAssociations db t ids).map (fun a => a.2)).toFinset).insertionSort (· ≤ ·),
      (t, i) ∉ db.associations) ∧
    ((setDiffList ids
        ((existingAssociations db t ids).map (fun a => a.2)).toFinset).insertionSort
          (· ≤ ·)).Nodup := by
  constructor
  · intro i hi
    have hmem : i ∈ setDiffList ids
        ((existingAssociations db t ids).map (fun a => a.2)).toFinset :=
      (List.perm_insertionSort _ _).mem_iff.1 hi
    obtain ⟨hin, hnot⟩ := (mem_setDiffList _ _ _).1 hmem
    intro hrow
    exact hnot ((mem_existingIds db t ids i).2 ⟨hrow, hin⟩)
  · exact (List.perm_insertionSort _ _).nodup_iff.2 (setDiffList_nodup _ _)

theorem add_companies_mem_after (db : DB) (t : CollectionId) (ids : List CompanyId)
    (r : AddCompaniesResponse)
    (hok : (add_companies_to_collection db t ids).1 = .ok r) :
    ∀ i ∈ ids, (t, i) ∈ (add_companies_to_collection db t ids).2.associations := by
  cases hcoll : getCollectionById db t with
  | none =>
    rw [add_companies_to_collection, hcoll] at hok
    exact absurd hok (by simp)
  | some coll =>
    simp only [add_companies_to_collection, hcoll] at hok ⊢
    by_cases hne : (queryCompaniesIn db ids).length ≠ ids.length
    · rw [if_pos hne] at hok
      exact absurd hok (by simp)
    · rw [if_neg hne] at hok ⊢
      by_cases hnil : setDiffList ids
          ((existingAssociations db t ids).map (fun a => a.2)).toFinset = []
      · rw [if_pos hnil]
        intro i hi
        show (t, i) ∈ db.associations
        have hiex : i ∈ ((existingAssociations db t ids).map (fun a => a.2)).toFinset :=
          (setDiffList_eq_nil_iff _ _).1 hnil i hi
        exact ((mem_existingIds db t ids i).1 hiex).1
      · rw [if_neg hnil]
        intro i hi
        obtain ⟨habs, hsortnodup⟩ := sorted_new_ids_spec db t ids
        rw [addLoop_run t _ db 0 habs hsortnodup]
        show (t, i) ∈ db.associations ++ _
        rw [List.mem_append]
        by_cases hex : i ∈ ((existingAssociations db t ids).map (fun a => a.2)).toFinset
        · exact Or.inl ((mem_existingIds db t ids i).1 hex).1
        · refine Or.inr ?_
          have h1 : i ∈ setDiffList ids
              ((existingAssociations db t ids).map (fun a => a.2)).toFinset :=
            (mem_setDiffList _ _ _).2 ⟨hi, hex⟩
          have h2 := (List.perm_insertionSort (· ≤ ·) _).mem_iff.2 h1
          exact List.mem_map.2 ⟨i, h2, rfl⟩

theorem add_companies_total_eq (db : DB) (t : CollectionId) (ids : List CompanyId)
    (r : AddCompaniesResponse)
    (hok : (add_companies_to_collection db t ids).1 = .ok r) :
    r.total_companies_in_target =
      countAssociations (add_companies_to_collection db t ids).2 t := by
  cases hcoll : getCollectionById db t with
  | none =>
    rw [add_companies_to_collection, hcoll] at hok
    exact absurd hok (by simp)
  | some coll =>
    simp only [add_companies_to_collection, hcoll] at hok ⊢
    by_cases hne : (queryCompaniesIn db ids).length ≠ ids.length
    · rw [if_pos hne] at hok
      exact absurd hok (by simp)
    · rw [if_neg hne] at hok ⊢
      by_cases hnil : setDiffList ids
          ((existingAssociations db t ids).map (fun a => a.2)).toFinset = []
      · rw [if_pos hnil] at hok ⊢
        obtain rfl := Except.ok.inj hok
        rfl
      · rw [if_neg hnil] at hok ⊢
        obtain rfl := Except.ok.inj hok
        rfl

/-- C5: idempotence of reconcile-add — if a first call to
`add_companies_to_collection` succeeds, a second call with the same target and
requested ids on the resulting state also succeeds, reports `added_count = 0`
(and `newly_added = 0` in its progress breakdown), and returns the same
`total_companies_in_target` as the first call. -/
theorem add_companies_idempotent (db : DB) (t : CollectionId) (ids : List CompanyId)
    (r1 : AddCompaniesResponse)
    (hok : (add_companies_to_collection db t ids).1 = .ok r1) :
    ∃ r2, (add_companies_to_collection (add_companies_to_collection db t ids).2 t ids).1 =
        .ok r2 ∧
      r2.added_count = 0 ∧ r2.progress.newly_added = 0 ∧
      r2.total_companies_in_target = r1.total_companies_in_target := by
  cases hcoll : getCollectionById db t with
  | none =>
    rw [add_companies_to_collection, hcoll] at hok
    exact absurd hok (by simp)
  | some coll =>
    by_cases hne : (queryCompaniesIn db ids).length ≠ ids.length
    · rw [add_companies_to_collection, hcoll] at hok
      simp only [if_pos hne] at hok
      exact absurd hok (by simp)
    · have hmem := add_companies_mem_after db t ids r1 hok
      have hfields := add_companies_fields db t ids
      have hcol2 : getCollectionById (add_companies_to_collection db t ids).2 t = some coll := by
        rw [getCollectionById, hfields.1]
        exact hcoll
      have hq2 : queryCompaniesIn (add_companies_to_collection db t ids).2 ids =
          queryCompaniesIn db ids := by
        rw [queryCompaniesIn, queryCompaniesIn, hfields.2]
      have hnil2 : setDiffList ids
          (((existingAssociations (add_companies_to_collection db t ids).2 t ids).map
            (fun a => a.2)).toFinset) = [] := by
        rw [setDiffList_eq_nil_iff]
        intro i hi
        exact (mem_existingIds _ t ids i).2 ⟨hmem i hi, hi⟩
      have htot := (add_companies_total_eq db t ids r1 hok).symm
      set db1 := (add_companies_to_collection db t ids).2 with hdb1
      simp only [add_companies_to_collection, hcol2, hq2]
      rw [if_neg hne, if_pos hnil2]
      exact ⟨_, rfl, rfl, rfl, htot⟩

theorem add_companies_idempotent_witness :
    (add_companies_to_collection ⟨[(1, "T")], [(3, "A"), (5, "B")], [(1, 3)]⟩ 1 [3, 5]).1 =
      .ok { message := "Successfully added 1 companies to T"
            added_count := 1
            total_companies_in_target := 2
            progress := { total_requested := 2
                          already_existed := 1
                          newly_added := 1
                          completion_percentage := 100 } } ∧
    ∃ r2, (add_companies_to_collection
        (add_companies_to_collection ⟨[(1, "T")], [(3, "A"), (5, "B")], [(1, 3)]⟩ 1 [3, 5]).2
        1 [3, 5]).1 = .ok r2 ∧
      r2.added_count = 0 ∧ r2.progress.newly_added = 0 ∧
      r2.total_companies_in_target =
        ({ message := "Successfully added 1 companies to T"
           added_count := 1
           total_companies_in_target := 2
           progress := { total_requested := 2
                         already_existed := 1
                         newly_added := 1
                         completion_percentage := 100 } : AddCompaniesResponse}).total_companies_in_target :=
  ⟨by decide,
    add_companies_idempotent ⟨[(1, "T")], [(3, "A"), (5, "B")], [(1, 3)]⟩ 1 [3, 5] _ (by decide)⟩

/-- C6: toggle is its own inverse — for an existing collection and company
(and a membership relation satisfying the at-most-one-row invariant), a toggle
succeeds, flips that pair's membership, reports `is_in_collection` equal to
the membership state after the call, and a second toggle restores the
membership relation (the association rows up to permutation). -/
theorem toggle_involution (db : DB) (cid : CollectionId) (coid : CompanyId)
    (hc : (getCollectionById db cid).isSome) (hco : (getCompanyById db coid).isSome)
    (hnd : db.associations.Nodup) :
    ∃ r1, (toggle_company_in_collection db cid coid).1 = .ok r1 ∧
      (((cid, coid) ∈ (toggle_company_in_collection db cid coid).2.associations) ↔
        (cid, coid) ∉ db.associations) ∧
      (r1.is_in_collection = true ↔
        (cid, coid) ∈ (toggle_company_in_collection db cid coid).2.associations) ∧
      ((toggle_company_in_collection
          (toggle_company_in_collection db cid coid).2 cid coid).2.associations).Perm
        db.associations := by
  obtain ⟨coll, hcoll⟩ := Option.isSome_iff_exists.1 hc
  obtain ⟨comp, hcomp⟩ := Option.isSome_iff_exists.1 hco
  cases hfind : assocFirst db cid coid with
  | some a =>
    obtain ⟨haeq, hamem⟩ := assocFirst_eq_some db cid coid a hfind
    subst haeq
    have hcoll2 : getCollectionById
        { db with associations := db.associations.erase (cid, coid) } cid = some coll := hcoll
    have hcomp2 : getCompanyById
        { db with associations := db.associations.erase (cid, coid) } coid = some comp := hcomp
    have hfind2 : assocFirst
        { db with associations := db.associations.erase (cid, coid) } cid coid = none := by
      rw [assocFirst_eq_none_iff]
      intro hmem
      exact ((hnd.mem_erase_iff).1 hmem).1 rfl
    simp only [toggle_company_in_collection, hcoll, hcomp, hfind, hcoll2, hcomp2, hfind2]
    refine ⟨_, rfl, ?_, ?_, ?_⟩
    · constructor
      · intro hmem
        exact absurd rfl ((hnd.mem_erase_iff).1 hmem).1
      · intro hnm
        exact absurd hamem hnm
    · constructor
      · intro hfalse
        exact absurd hfalse (by simp)
      · intro hmem
        exact absurd rfl ((hnd.mem_erase_iff).1 hmem).1
    · exact (List.perm_append_singleton _ _).trans (List.perm_cons_erase hamem).symm
  | none =>
    have hnmem : (cid, coid) ∉ db.associations := (assocFirst_eq_none_iff db cid coid).1 hfind
    have hcoll2 : getCollectionById
        { db with associations := db.associations ++ [(cid, coid)] } cid = some coll := hcoll
    have hcomp2 : getCompanyById
        { db with associations := db.associations ++ [(cid, coid)] } coid = some comp := hcomp
    have hmem1 : (cid, coid) ∈ db.associations ++ [(cid, coid)] := by simp
    have hfind2 : assocFirst
        { db with associations := db.associations ++ [(cid, coid)] } cid coid =
        some (cid, coid) := by
      cases hf : assocFirst { db with associations := db.associations ++ [(cid, coid)] }
          cid coid with
      | none => exact absurd hmem1 ((assocFirst_eq_none_iff _ cid coid).1 hf)
      | some a' =>
        obtain ⟨ha', _⟩ := assocFirst_eq_some _ cid coid a' hf
        rw [ha']
    simp only [toggle_company_in_collection, hcoll, hcomp, hfind, hcoll2, hcomp2, hfind2]
    refine ⟨_, rfl, ?_, ?_, ?_⟩
    · simp [hnmem]
    · simp
    · show List.Perm ((db.associations ++ [(cid, coid)]).erase (cid, coid)) db.associations
      rw [List.erase_append_right _ hnmem, List.erase_cons_head]
      simp

theorem toggle_involution_witness :
    (getCollectionById ⟨[(1, "T")], [(3, "A")], [(1, 3)]⟩ 1).isSome ∧
    (getCompanyById ⟨[(1, "T")], [(3, "A")], [(1, 3)]⟩ 3).isSome ∧
    ((⟨[(1, "T")], [(3, "A")], [(1, 3)]⟩ : DB).associations).Nodup ∧
    ∃ r1, (toggle_company_in_collection ⟨[(1, "T")], [(3, "A")], [(1, 3)]⟩ 1 3).1 = .ok r1 ∧
      (((1, (3 : Int)) ∈
          (toggle_company_in_collection ⟨[(1, "T")], [(3, "A")], [(1, 3)]⟩ 1 3).2.associations) ↔
        (1, (3 : Int)) ∉ (⟨[(1, "T")], [(3, "A")], [(1, 3)]⟩ : DB).associations) ∧
      (r1.is_in_collection = true ↔
        (1, (3 : Int)) ∈
          (toggle_company_in_collection ⟨[(1, "T")], [(3, "A")], [(1, 3)]⟩ 1 3).2.associations) ∧
      ((toggle_company_in_collection
          (toggle_company_in_collection ⟨[(1, "T")], [(3, "A")], [(1, 3)]⟩ 1 3).2
          1 3).2.associations).Perm (⟨[(1, "T")], [(3, "A")], [(1, 3)]⟩ : DB).associations :=
  ⟨by decide, by decide, by decide,
    toggle_involution ⟨[(1, "T")], [(3, "A")], [(1, 3)]⟩ 1 3 (by decide) (by decide) (by decide)⟩

theorem unlikeLoop_nodup (liked : CollectionId) (l : List CompanyId) : ∀ (db : DB) (n : Nat),
    db.associations.Nodup → (unlikeLoop liked l db n).1.associations.Nodup := by
  induction l with
  | nil => intro db n h; simpa [unlikeLoop]
  | cons i rest ih =>
    intro db n h
    rw [unlikeLoop]
    cases hfind : assocFirst db liked i with
    | some a => exact ih _ _ (h.erase a)
    | none => exact ih db n h

theorem addStreamLoop_db_eq (t : CollectionId) (total : Nat) (l : List CompanyId) :
    ∀ (db : DB) (p n : Nat),
      (addStreamLoop t total l db p n).2.1 = (addLoop t l db n).1 ∧
      (addStreamLoop t total l db p n).2.2.2 = (addLoop t l db n).2 := by
  induction l with
  | nil => intro db p n; exact ⟨rfl, rfl⟩
  | cons i rest ih =>
    intro db p n
    simp only [addStreamLoop, addLoop]
    cases hfind : assocFirst db t i with
    | some a =>
      simp only [hfind]
      exact ih db (p + 1) n
    | none =>
      simp only [hfind]
      exact ih _ (p + 1) (n + 1)

theorem likeStreamLoop_db_eq (liked : CollectionId) (total : Nat) (l : List CompanyId) :
    ∀ (db : DB) (p n : Nat),
      (likeStreamLoop liked total l db p n).2.1 = (addLoop liked l db n).1 ∧
      (likeStreamLoop liked total l db p n).2.2.2 = (addLoop liked l db n).2 := by
  induction l with
  | nil => intro db p n; exact ⟨rfl, rfl⟩
  | cons i rest ih =>
    intro db p n
    simp only [likeStreamLoop, addLoop]
    cases hfind : assocFirst db liked i with
    | some a =>
      simp only [hfind]
      exact ih db (p + 1) n
    | none =>
      simp only [hfind]
      exact ih _ (p + 1) (n + 1)

theorem unlikeStreamLoop_db_eq (liked : CollectionId) (total : Nat) (l : List CompanyId) :
    ∀ (db : DB) (p n : Nat),
      (unlikeStreamLoop liked total l db p n).2.1 = (unlikeLoop liked l db n).1 ∧
      (unlikeStreamLoop liked total l db p n).2.2.2 = (unlikeLoop liked l db n).2 := by
  induction l with
  | nil => intro db p n; exact ⟨rfl, rfl⟩
  | cons i rest ih =>
    intro db p n
    simp only [unlikeStreamLoop, unlikeLoop]
    cases hfind : assocFirst db liked i with
    | some a =>
      simp only [hfind]
      exact ih _ (p + 1) (n + 1)
    | none =>
      simp only [hfind]
      exact ih db (p + 1) n

set_option maxHeartbeats 1000000 in
/-- C4: uniqueness invariant of the membership relation — starting from a
state whose association table has no duplicate (collection, company) rows,
each operation of the component (`add_companies_to_collection`,
`add_companies_to_collection_stream`, `toggle_company_in_collection`,
`like_companies_bulk`, `unlike_companies_bulk`, `like_companies_stream`,
`unlike_companies_stream`), run without concurrent interference, leaves the
association table without duplicate rows. -/
theorem operations_preserve_membership_uniqueness (db : DB) (t cid : CollectionId)
    (coid : CompanyId) (ids : List CompanyId) (hnd : db.associations.Nodup) :
    (add_companies_to_collection db t ids).2.associations.Nodup ∧
    (add_companies_to_collection_stream db t ids).2.associations.Nodup ∧
    (toggle_company_in_collection db cid coid).2.associations.Nodup ∧
    (like_companies_bulk db ids).2.1.associations.Nodup ∧
    (unlike_companies_bulk db ids).2.associations.Nodup ∧
    (like_companies_stream db ids).2.associations.Nodup ∧
    (unlike_companies_stream db ids).2.associations.Nodup := by
  refine ⟨?_, ?_, ?_, ?_, ?_, ?_, ?_⟩
  · rw [add_companies_to_collection]
    cases hcoll : getCollectionById db t with
    | none => exact hnd
    | some coll =>
      simp only
      split
      · exact hnd
      · split
        · exact hnd
        · exact addLoop_nodup t _ db 0 hnd
  · rw [add_companies_to_collection_stream]
    cases hcoll : getCollectionById db t with
    | none => exact hnd
    | some coll =>
      simp only
      split
      · exact hnd
      · split
        · exact hnd
        · show (addStreamLoop t
              ((setDiffList ids
                ((existingAssociations db t ids).map (fun a => a.2)).toFinset).insertionSort
                (· ≤ ·)).length
              ((setDiffList ids
                ((existingAssociations db t ids).map (fun a => a.2)).toFinset).insertionSort
                (· ≤ ·)) db 0 0).2.1.associations.Nodup
          rw [(addStreamLoop_db_eq t _ _ db 0 0).1]
          exact addLoop_nodup t _ db 0 hnd
  · rw [toggle_company_in_collection]
    cases hcoll : getCollectionById db cid with
    | none => exact hnd
    | some coll =>
      simp only
      cases hcomp : getCompanyById db coid with
      | none => exact hnd
      | some comp =>
        simp only
        cases hfind : assocFirst db cid coid with
        | some a => exact hnd.erase a
        | none =>
          have hnm : (cid, coid) ∉ db.associations :=
            (assocFirst_eq_none_iff db cid coid).1 hfind
          show (db.associations ++ [(cid, coid)]).Nodup
          simp [List.nodup_append, hnd, hnm]
  · rw [like_companies_bulk]
    cases hml : db.collections.find? (fun c => c.2 == "My List") with
    | none => exact hnd
    | some myl =>
      cases hlk : db.collections.find? (fun c => c.2 == "Liked Companies List") with
      | none => exact hnd
      | some liked =>
        simp only
        split
        · exact hnd
        · show (db.associations ++
              ((setDiffList ids
                ((existingAssociations db liked.1 ids).map (fun a => a.2)).toFinset).insertionSort
                (· ≤ ·)).map (fun i => (liked.1, i))).Nodup
          refine List.Nodup.append hnd ?_ ?_
          · refine List.Nodup.map ?_
              ((List.perm_insertionSort _ _).nodup_iff.2 (setDiffList_nodup _ _))
            intro a b hab
            simpa using hab
          · intro q hq hq2
            obtain ⟨i, hi, rfl⟩ := List.mem_map.1 hq2
            have himem : i ∈ setDiffList ids
                ((existingAssociations db liked.1 ids).map (fun a => a.2)).toFinset :=
              (List.perm_insertionSort _ _).mem_iff.1 hi
            obtain ⟨hin, hnot⟩ := (mem_setDiffList _ _ _).1 himem
            exact hnot ((mem_existingIds db liked.1 ids i).2 ⟨hq, hin⟩)
  · rw [unlike_companies_bulk]
    cases hml : db.collections.find? (fun c => c.2 == "My List") with
    | none => exact hnd
    | some myl =>
      cases hlk : db.collections.find? (fun c => c.2 == "Liked Companies List") with
      | none => exact hnd
      | some liked =>
        simp only
        split
        · exact hnd
        · exact unlikeLoop_nodup liked.1 _ db 0 hnd
  · rw [like_companies_stream]
    cases hml : db.collections.find? (fun c => c.2 == "My List") with
    | none => exact hnd
    | some myl =>
      cases hlk : db.collections.find? (fun c => c.2 == "Liked Companies List") with
      | none => exact hnd
      | some liked =>
        simp only
        split
        · exact hnd
        · split
          · exact hnd
          · show (likeStreamLoop liked.1
                ((setDiffList ids
                  ((existingAssociations db liked.1 ids).map (fun a => a.2)).toFinset).insertionSort
                  (· ≤ ·)).length
                ((setDiffList ids
                  ((existingAssociations db liked.1 ids).map (fun a => a.2)).toFinset).insertionSort
                  (· ≤ ·)) db 0 0).2.1.associations.Nodup
            rw [(likeStreamLoop_db_eq liked.1 _ _ db 0 0).1]
            exact addLoop_nodup liked.1 _ db 0 hnd
  · rw [unlike_companies_stream]
    cases hml : db.collections.find? (fun c => c.2 == "My List") with
    | none => exact hnd
    | some myl =>
      cases hlk : db.collections.find? (fun c => c.2 == "Liked Companies List") with
      | none => exact hnd
      | some liked =>
        simp only
        split
        · exact hnd
        · split
          · exact hnd
          · show (unlikeStreamLoop liked.1
                ((setInterList ids
                  ((existingAssociations db liked.1 ids).map (fun a => a.2)).toFinset).insertionSort
                  (· ≤ ·)).length
                ((setInterList ids
                  ((existingAssociations db liked.1 ids).map (fun a => a.2)).toFinset).insertionSort
                  (· ≤ ·)) db 0 0).2.1.associations.Nodup
            rw [(unlikeStreamLoop_db_eq liked.1 _ _ db 0 0).1]
            exact unlikeLoop_nodup liked.1 _ db 0 hnd

theorem operations_preserve_membership_uniqueness_witness :
    ((⟨[(1, "My List"), (2, "Liked Companies List")], [(3, "A")], [(1, 3)]⟩ : DB).associations).Nodup ∧
    (add_companies_to_collection
        ⟨[(1, "My List"), (2, "Liked Companies List")], [(3, "A")], [(1, 3)]⟩ 2 [3]).2.associations.Nodup ∧
    (add_companies_to_collection_stream
        ⟨[(1, "My List"), (2, "Liked Companies List")], [(3, "A")], [(1, 3)]⟩ 2 [3]).2.associations.Nodup ∧
    (toggle_company_in_collection
        ⟨[(1, "My List"), (2, "Liked Companies List")], [(3, "A")], [(1, 3)]⟩ 1 3).2.associations.Nodup ∧
    (like_companies_bulk
        ⟨[(1, "My List"), (2, "Liked Companies List")], [(3, "A")], [(1, 3)]⟩ [3]).2.1.associations.Nodup ∧
    (unlike_companies_bulk
        ⟨[(1, "My List"), (2, "Liked Companies List")], [(3, "A")], [(1, 3)]⟩ [3]).2.associations.Nodup ∧
    (like_companies_stream
        ⟨[(1, "My List"), (2, "Liked Companies List")], [(3, "A")], [(1, 3)]⟩ [3]).2.associations.Nodup ∧
    (unlike_companies_stream
        ⟨[(1, "My List"), (2, "Liked Companies List")], [(3, "A")], [(1, 3)]⟩ [3]).2.associations.Nodup :=
  ⟨by decide,
    operations_preserve_membership_uniqueness
      ⟨[(1, "My List"), (2, "Liked Companies List")], [(3, "A")], [(1, 3)]⟩ 2 1 3 [3] (by decide)⟩

theorem newlyAddedDeltaSum_append_complete (l : List AddStreamEvent)
    (msg : String) (tp na : Nat) : ∀ prev : Nat,
    newlyAddedDeltaSum prev (l ++ [.complete msg tp na]) = newlyAddedDeltaSum prev l := by
  induction l with
  | nil => intro prev; simp [newlyAddedDeltaSum]
  | cons e rest ih =>
    intro prev
    cases e <;> simp [newlyAddedDeltaSum, ih]

theorem addStreamLoop_events (t : CollectionId) (total : Nat) (l : List CompanyId) :
    ∀ (db : DB) (p n : Nat),
      (∀ e ∈ (addStreamLoop t total l db p n).1, isProgressEvent e = true) ∧
      (addStreamLoop t total l db p n).1.length = l.length ∧
      (addStreamLoop t total l db p n).2.2.1 = p + l.length ∧
      newlyAddedDeltaSum n (addStreamLoop t total l db p n).1 =
        ((addStreamLoop t total l db p n).2.2.2 : Int) - (n : Int) := by
  induction l with
  | nil =>
    intro db p n
    refine ⟨by simp [addStreamLoop], by simp [addStreamLoop], by simp [addStreamLoop], ?_⟩
    simp [addStreamLoop, newlyAddedDeltaSum]
  | cons i rest ih =>
    intro db p n
    simp only [addStreamLoop]
    cases hfind : assocFirst db t i with
    | some a =>
      simp only [hfind]
      obtain ⟨ih1, ih2, ih3, ih4⟩ := ih db (p + 1) n
      refine ⟨?_, ?_, ?_, ?_⟩
      · intro e he
        rcases List.mem_cons.1 he with rfl | he'
        · rfl
        · exact ih1 e he'
      · simp [ih2]
      · rw [ih3, List.length_cons]
        omega
      · simp only [newlyAddedDeltaSum]
        rw [ih4]
        ring
    | none =>
      simp only [hfind]
      obtain ⟨ih1, ih2, ih3, ih4⟩ := ih _ (p + 1) (n + 1)
      refine ⟨?_, ?_, ?_, ?_⟩
      · intro e he
        rcases List.mem_cons.1 he with rfl | he'
        · rfl
        · exact ih1 e he'
      · simp [ih2]
      · rw [ih3, List.length_cons]
        omega
      · simp only [newlyAddedDeltaSum]
        rw [ih4]
        push_cast
        ring

theorem filter_progress_events (events' : List AddStreamEvent) (msg : String)
    (tp na total : Nat) (h : ∀ e ∈ events', isProgressEvent e = true) :
    ((AddStreamEvent.start total 0 0 ::
        (events' ++ [AddStreamEvent.complete msg tp na])).filter isProgressEvent) = events' := by
  rw [List.filter_cons]
  simp only [isProgressEvent, Bool.false_eq_true, if_false, List.filter_append]
  rw [List.filter_eq_self.2 h]
  simp [isProgressEvent]

/-- C7 (amended): in every run of `add_companies_to_collection_stream`'s event
generator (the pure sequential model raises no exception, so every run is
error-free), either the set of ids to process is empty and the stream is a
single `complete` event (no `start` event, and no `newly_added` field), or the
stream is `start`, one `progress` event per processed id, and a terminal
`complete` event; in the latter case the sum of the `newly_added` increments
across `progress` events equals the `newly_added` of the `complete` event, and
the event count is the processed-id count plus two. -/
theorem add_stream_event_invariant (db : DB) (t : CollectionId) (ids : List CompanyId)
    (events : List AddStreamEvent)
    (hok : (add_companies_to_collection_stream db t ids).1 = .ok events) :
    (events = [.completeAllExist "All companies already exist"] ∧
      (events.filter isProgressEvent).length = 0) ∨
    (∃ msg processed newly_added,
      events.getLast? = some (.complete msg processed newly_added) ∧
      newlyAddedDeltaSum 0 events = (newly_added : Int) ∧
      events.length = processed + 2 ∧
      processed = (events.filter isProgressEvent).length) := by
  cases hcoll : getCollectionById db t with
  | none =>
    rw [add_companies_to_collection_stream, hcoll] at hok
    exact absurd hok (by simp)
  | some coll =>
    simp only [add_companies_to_collection_stream, hcoll] at hok
    by_cases hne : (queryCompaniesIn db ids).length ≠ ids.length
    · rw [if_pos hne] at hok
      exact absurd hok (by simp)
    · rw [if_neg hne] at hok
      by_cases hnil : setDiffList ids
          ((existingAssociations db t ids).map (fun a => a.2)).toFinset = []
      · rw [if_pos hnil] at hok
        obtain rfl := Except.ok.inj hok
        exact Or.inl ⟨rfl, by simp [isProgressEvent]⟩
      · rw [if_neg hnil] at hok
        obtain rfl := Except.ok.inj hok
        right
        set sorted := (setDiffList ids
          ((existingAssociations db t ids).map (fun a => a.2)).toFinset).insertionSort
          (· ≤ ·) with hsorted
        obtain ⟨h1, h2, h3, h4⟩ := addStreamLoop_events t sorted.length sorted db 0 0
        refine ⟨"Successfully added " ++
            toString (addStreamLoop t sorted.length sorted db 0 0).2.2.2 ++ " companies",
          (addStreamLoop t sorted.length sorted db 0 0).2.2.1,
          (addStreamLoop t sorted.length sorted db 0 0).2.2.2, ?_, ?_, ?_, ?_⟩
        · rw [← List.cons_append, List.getLast?_concat]
        · simp only [newlyAddedDeltaSum]
          rw [newlyAddedDeltaSum_append_complete, h4]
          simp
        · rw [List.length_cons, List.length_append, h2, h3]
          simp
        · rw [filter_progress_events _ _ _ _ _ h1, h2, h3]
          omega

/-- C7 counterexample: an error-free run in which every requested company is
already a member emits exactly one event (a `complete` with no `start` and no
`newly_added` field), so the claimed equality "event count = processed-id
count + 2" fails: this run processes zero ids (it contains zero `progress`
events) yet emits one event, not two. -/
theorem add_stream_event_count_counterexample :
    (add_companies_to_collection_stream ⟨[(1, "T")], [(3, "A")], [(1, 3)]⟩ 1 [3]).1 =
      .ok [.completeAllExist "All companies already exist"] ∧
    (([AddStreamEvent.completeAllExist "All companies already exist"]).filter
      isProgressEvent).length = 0 ∧
    ([AddStreamEvent.completeAllExist "All companies already exist"]).length ≠ 0 + 2 :=
  ⟨by decide, by decide, by decide⟩

theorem add_stream_event_invariant_witness :
    (add_companies_to_collection_stream ⟨[(1, "T")], [(3, "A"), (5, "B")], [(1, 3)]⟩ 1 [3, 5]).1 =
      .ok [AddStreamEvent.start 1 0 0, AddStreamEvent.progress 1 1 100 1,
           AddStreamEvent.complete "Successfully added 1 companies" 1 1] ∧
    (([AddStreamEvent.start 1 0 0, AddStreamEvent.progress 1 1 100 1,
        AddStreamEvent.complete "Successfully added 1 companies" 1 1] =
          [AddStreamEvent.completeAllExist "All companies already exist"] ∧
        (([AddStreamEvent.start 1 0 0, AddStreamEvent.progress 1 1 100 1,
           AddStreamEvent.complete "Successfully added 1 companies" 1 1]).filter
          isProgressEvent).length = 0) ∨
      (∃ msg processed newly_added,
        ([AddStreamEvent.start 1 0 0, AddStreamEvent.progress 1 1 100 1,
          AddStreamEvent.complete "Successfully added 1 companies" 1 1]).getLast? =
            some (.complete msg processed newly_added) ∧
        newlyAddedDeltaSum 0
            [AddStreamEvent.start 1 0 0, AddStreamEvent.progress 1 1 100 1,
             AddStreamEvent.complete "Successfully added 1 companies" 1 1] =
          (newly_added : Int) ∧
        ([AddStreamEvent.start 1 0 0, AddStreamEvent.progress 1 1 100 1,
          AddStreamEvent.complete "Successfully added 1 companies" 1 1]).length =
          processed + 2 ∧
        processed = (([AddStreamEvent.start 1 0 0, AddStreamEvent.progress 1 1 100 1,
          AddStreamEvent.complete "Successfully added 1 companies" 1 1]).filter
            isProgressEvent).length)) :=
  ⟨by decide,
    add_stream_event_invariant ⟨[(1, "T")], [(3, "A"), (5, "B")], [(1, 3)]⟩ 1 [3, 5]
      [AddStreamEvent.start 1 0 0, AddStreamEvent.progress 1 1 100 1,
       AddStreamEvent.complete "Successfully added 1 companies" 1 1] (by decide)⟩

/-- C8 (amended): `like_companies_bulk` does not follow the per-item-commit
pattern: on every successful call its session trace stages one insert per
to-like id and then issues a single `commit` after the loop, so the whole
batch becomes durable together; per-item commits occur in
`add_companies_to_collection` and the streaming variants, not here. -/
theorem like_bulk_single_commit (db : DB) (ids : List CompanyId)
    (r : LikeBulkResponse) (db1 : DB) (trace : List DbAction)
    (hok : like_companies_bulk db ids = (.ok r, db1, trace)) :
    ∃ rows, trace = rows.map DbAction.add ++ [DbAction.commit] ∧
      db1.associations = db.associations ++ rows := by
  rw [like_companies_bulk] at hok
  cases hml : db.collections.find? (fun c => c.2 == "My List") with
  | none =>
    rw [hml] at hok
    simp at hok
  | some myl =>
    rw [hml] at hok
    cases hlk : db.collections.find? (fun c => c.2 == "Liked Companies List") with
    | none =>
      rw [hlk] at hok
      simp at hok
    | some liked =>
      rw [hlk] at hok
      by_cases hne : (queryCompaniesIn db ids).length ≠ ids.length
      · simp only [if_pos hne] at hok
        simp at hok
      · simp only [if_neg hne, Prod.mk.injEq, Except.ok.injEq] at hok
        obtain ⟨hr, hdb, htr⟩ := hok
        refine ⟨((setDiffList ids
            ((existingAssociations db liked.1 ids).map (fun a => a.2)).toFinset).insertionSort
            (· ≤ ·)).map (fun i => (liked.1, i)), ?_, ?_⟩
        · exact htr.symm
        · rw [← hdb]

theorem like_bulk_per_item_commit_counterexample :
    (like_companies_bulk ⟨[(1, "My List"), (2, "Liked Companies List")],
        [(4, "A"), (6, "B")], []⟩ [4, 6]).2.2 =
      [DbAction.add (2, 4), DbAction.add (2, 6), DbAction.commit] ∧
    perItemCommitted false
      (like_companies_bulk ⟨[(1, "My List"), (2, "Liked Companies List")],
        [(4, "A"), (6, "B")], []⟩ [4, 6]).2.2 = false ∧
    (like_companies_bulk ⟨[(1, "My List"), (2, "Liked Companies List")],
        [(4, "A"), (6, "B")], []⟩ [4, 6]).1 =
      .ok { message := "Successfully liked 2 companies (0 were already liked)"
            newly_liked := 2
            already_liked := 0
            total_liked := 2
            total_requested := 2 } :=
  ⟨by decide, by decide, by decide⟩

theorem like_bulk_single_commit_witness :
    like_companies_bulk ⟨[(1, "My List"), (2, "Liked Companies List")],
        [(4, "A"), (6, "B")], []⟩ [4, 6] =
      (.ok { message := "Successfully liked 2 companies (0 were already liked)"
             newly_liked := 2
             already_liked := 0
             total_liked := 2
             total_requested := 2 },
       ⟨[(1, "My List"), (2, "Liked Companies List")], [(4, "A"), (6, "B")],
        [(2, 4), (2, 6)]⟩,
       [DbAction.add (2, 4), DbAction.add (2, 6), DbAction.commit]) ∧
    ∃ rows, [DbAction.add (2, 4), DbAction.add (2, 6), DbAction.commit] =
        rows.map DbAction.add ++ [DbAction.commit] ∧
      (⟨[(1, "My List"), (2, "Liked Companies List")], [(4, "A"), (6, "B")],
        [(2, 4), (2, 6)]⟩ : DB).associations =
        (⟨[(1, "My List"), (2, "Liked Companies List")], [(4, "A"), (6, "B")], []⟩ : DB).associations
          ++ rows :=
  ⟨by decide,
    like_bulk_single_commit ⟨[(1, "My List"), (2, "Liked Companies List")],
        [(4, "A"), (6, "B")], []⟩ [4, 6]
      { message := "Successfully liked 2 companies (0 were already liked)"
        newly_liked := 2
        already_liked := 0
        total_liked := 2
        total_requested := 2 }
      ⟨[(1, "My List"), (2, "Liked Companies List")], [(4, "A"), (6, "B")],
       [(2, 4), (2, 6)]⟩
      [DbAction.add (2, 4), DbAction.add (2, 6), DbAction.commit] (by decide)⟩

theorem joined_row_ids (db : DB) (cid : CollectionId)
    (row : (CollectionId × CompanyId) × CompanyId × String)
    (hrow : row ∈ joinedRows db cid) : row.1.2 = row.2.1 ∧ row.1.1 = cid := by
  rw [joinedRows, List.mem_flatMap] at hrow
  obtain ⟨a, ha, hb⟩ := hrow
  rw [List.mem_filter] at ha
  obtain ⟨c, hc, rfl⟩ := List.mem_map.1 hb
  rw [List.mem_filter] at hc
  exact ⟨(beq_iff_eq.1 hc.2).symm, beq_iff_eq.1 ha.2⟩

theorem key_filter_length (l : List (CompanyId × String)) (k : CompanyId)
    (h : (l.map Prod.fst).Nodup) (hk : k ∈ l.map Prod.fst) :
    (l.filter (fun c => c.1 == k)).length = 1 := by
  rw [← List.countP_eq_length_filter]
  have h1 : List.countP (fun c => c.1 == k) l =
      List.countP (fun x => x == k) (l.map Prod.fst) := by
    rw [List.countP_map]
    rfl
  rw [h1]
  have h2 : List.countP (fun x => x == k) (l.map Prod.fst) =
      List.count k (l.map Prod.fst) := rfl
  rw [h2]
  exact List.count_eq_one_of_mem h hk

theorem sum_map_ones {α : Type} (l : List α) (g : α → Nat) (h : ∀ a ∈ l, g a = 1) :
    (l.map g).sum = l.length := by
  induction l with
  | nil => simp
  | cons a rest ih =>
    rw [List.map_cons, List.sum_cons, h a (List.mem_cons_self a rest),
      ih (fun b hb => h b (List.mem_cons_of_mem a hb)), List.length_cons]
    omega

theorem joinedRows_length (db : DB) (cid : CollectionId)
    (hkeys : (db.companies.map Prod.fst).Nodup)
    (hri : ∀ a ∈ db.associations, a.1 = cid → a.2 ∈ db.companies.map Prod.fst) :
    (joinedRows db cid).length = countAssociations db cid := by
  rw [joinedRows, countAssociations, List.length_flatMap]
  refine sum_map_ones _ _ ?_
  intro a ha
  rw [List.mem_filter] at ha
  show ((db.companies.filter (fun c => c.1 == a.2)).map (fun c => (a, c))).length = 1
  rw [List.length_map]
  exact key_filter_length db.companies a.2 hkeys (hri a ha.1 (beq_iff_eq.1 ha.2))

/-- C9: list-members ordering and total — for an existing collection (under
the company primary-key invariant and referential integrity of its membership
rows), `get_company_collection_by_id` returns page rows sorted ascending by
company id for every offset/limit, with `total` equal to the collection's full
membership count independent of the pagination window, and
`get_collection_company_ids` returns all member company ids sorted ascending
with `total_count` equal to the same membership count. -/
theorem list_members_sorted_and_total (db : DB) (cid : CollectionId)
    (offset limit : Nat) (out : CompanyCollectionOutput) (r : CollectionCompanyIdsResponse)
    (hkeys : (db.companies.map Prod.fst).Nodup)
    (hri : ∀ a ∈ db.associations, a.1 = cid → a.2 ∈ db.companies.map Prod.fst)
    (hout : get_company_collection_by_id db cid offset limit = some out)
    (hr : get_collection_company_ids db cid = .ok r) :
    List.Sorted (· ≤ ·) out.companies ∧ out.total = countAssociations db cid ∧
    List.Sorted (· ≤ ·) r.company_ids ∧ r.total_count = countAssociations db cid := by
  simp only [get_company_collection_by_id] at hout
  rw [Option.map_eq_some'] at hout
  obtain ⟨coll, hcoll, rfl⟩ := hout
  simp only [get_collection_company_ids, hcoll] at hr
  obtain rfl := Except.ok.inj hr
  have hsorted : List.Pairwise (fun x y => x.2.1 ≤ y.2.1)
      ((joinedRows db cid).insertionSort (fun x y => x.2.1 ≤ y.2.1)) :=
    List.sorted_insertionSort _ _
  refine ⟨?_, ?_, ?_, ?_⟩
  · show List.Sorted (· ≤ ·)
      (((((joinedRows db cid).insertionSort (fun x y => x.2.1 ≤ y.2.1)).drop offset).take
        limit).map (fun row => row.2.1))
    have hsub : ((((joinedRows db cid).insertionSort (fun x y => x.2.1 ≤ y.2.1)).drop
        offset).take limit).Sublist
        ((joinedRows db cid).insertionSort (fun x y => x.2.1 ≤ y.2.1)) :=
      (List.take_sublist _ _).trans (List.drop_sublist _ _)
    exact List.Pairwise.map _ (fun a b h => h) (List.Pairwise.sublist hsub hsorted)
  · show (joinedRows db cid).length = countAssociations db cid
    exact joinedRows_length db cid hkeys hri
  · show List.Sorted (· ≤ ·)
      (((joinedRows db cid).insertionSort (fun x y => x.2.1 ≤ y.2.1)).map (fun row => row.1.2))
    have hmapeq : (((joinedRows db cid).insertionSort (fun x y => x.2.1 ≤ y.2.1)).map
        (fun row => row.1.2)) =
        (((joinedRows db cid).insertionSort (fun x y => x.2.1 ≤ y.2.1)).map
        (fun row => row.2.1)) :=
      List.map_congr_left (fun a ha =>
        (joined_row_ids db cid a ((List.perm_insertionSort _ _).mem_iff.1 ha)).1)
    rw [hmapeq]
    exact List.Pairwise.map _ (fun a b h => h) hsorted
  · show (((joinedRows db cid).insertionSort (fun x y => x.2.1 ≤ y.2.1)).map
      (fun row => row.1.2)).length = countAssociations db cid
    rw [List.length_map, (List.perm_insertionSort _ _).length_eq]
    exact joinedRows_length db cid hkeys hri

theorem list_members_sorted_and_total_witness :
    ((⟨[(1, "T")], [(3, "A"), (5, "B")], [(1, 5), (1, 3)]⟩ : DB).companies.map Prod.fst).Nodup ∧
    (∀ a ∈ (⟨[(1, "T")], [(3, "A"), (5, "B")], [(1, 5), (1, 3)]⟩ : DB).associations,
      a.1 = 1 → a.2 ∈ (⟨[(1, "T")], [(3, "A"), (5, "B")], [(1, 5), (1, 3)]⟩ : DB).companies.map Prod.fst) ∧
    get_company_collection_by_id ⟨[(1, "T")], [(3, "A"), (5, "B")], [(1, 5), (1, 3)]⟩ 1 0 10 =
      some { id := 1, collection_name := "T", companies := [3, 5], total := 2 } ∧
    get_collection_company_ids ⟨[(1, "T")], [(3, "A"), (5, "B")], [(1, 5), (1, 3)]⟩ 1 =
      .ok { company_ids := [3, 5], total_count := 2 } ∧
    (List.Sorted (· ≤ ·)
        ({ id := 1, collection_name := "T", companies := [3, 5], total := 2 } :
          CompanyCollectionOutput).companies ∧
      ({ id := 1, collection_name := "T", companies := [3, 5], total := 2 } :
          CompanyCollectionOutput).total =
        countAssociations ⟨[(1, "T")], [(3, "A"), (5, "B")], [(1, 5), (1, 3)]⟩ 1 ∧
      List.Sorted (· ≤ ·)
        ({ company_ids := [3, 5], total_count := 2 } : CollectionCompanyIdsResponse).company_ids ∧
      ({ company_ids := [3, 5], total_count := 2 } : CollectionCompanyIdsResponse).total_count =
        countAssociations ⟨[(1, "T")], [(3, "A"), (5, "B")], [(1, 5), (1, 3)]⟩ 1) :=
  ⟨by decide, by decide, by decide, by decide,
    list_members_sorted_and_total ⟨[(1, "T")], [(3, "A"), (5, "B")], [(1, 5), (1, 3)]⟩ 1 0 10
      { id := 1, collection_name := "T", companies := [3, 5], total := 2 }
      { company_ids := [3, 5], total_count := 2 }
      (by decide) (by decide) (by decide) (by decide)⟩
